import Mathlib

/-!
Verification of the SiReset suite core (`core/mougli_core.py`) against its
specification.  The pandas pipeline is shallowly embedded: a DataFrame is a
`List` of typed records in row order, derived columns are functions of the
row list and a row index, monetary values are exact rationals (`ℚ`), and the
64-bit composite hash keys of `hash_pandas_object` are modelled by the field
tuples themselves (the spec's invariant states the keys are deterministic,
collision-resistant functions of the tuples).  Missing numeric cells
(`NaN`/`NaT`) are `Option` values.
-/

namespace Mougli

/-- One placement (OutView) row after parsing and the calendar-derivation
step of `_transform_outview_enriquecido` (lines 262-265): `fecha` is the
parsed date as an abstract linearly-ordered day index, and `mes`, `año`,
`semana` hold the derived MES / AÑO / SEMANA columns (the calendar functions
themselves are not the subject of any claim).  `tarifa` is the "Tarifa S/."
column after `_fix_tarifa` (`none` = NaN). -/
structure OutRow where
  fecha : Nat
  mes : String
  anio : Int
  semana : Nat
  latitud : ℚ
  longitud : ℚ
  avenida : String
  nroCalle : String
  marca : String
  tipoElemento : String
  orientacionVia : String
  tarifa : Option ℚ
  proveedor : String
  distrito : String
  codProveedor : String
  nombreBase : String
  item : String
  version : String
  categoria : String
  anunciante : String
deriving DecidableEq, Inhabited

/-- PlacementIdentity: the 13-field tuple `cu_cols` hashed into `s_cu`
(mougli_core.py lines 290-293). -/
structure CodigoUnico where
  mes : String
  anio : Int
  latitud : ℚ
  longitud : ℚ
  avenida : String
  nroCalle : String
  marca : String
  tipoElemento : String
  orientacionVia : String
  tarifa : Option ℚ
  proveedor : String
  distrito : String
  codProveedor : String
deriving DecidableEq, Inhabited

/-- PieceIdentity: the 16-field tuple `c1_cols` hashed into `s_c1`
(mougli_core.py lines 295-298). -/
structure CodigoPieza where
  nombreBase : String
  proveedor : String
  tipoElemento : String
  distrito : String
  orientacionVia : String
  nroCalle : String
  item : String
  version : String
  latitud : ℚ
  longitud : ℚ
  categoria : String
  tarifa : Option ℚ
  anunciante : String
  mes : String
  anio : Int
  semana : Nat
deriving DecidableEq, Inhabited

/-- Exact-date secondary aggregation key: `ab_cols` (lines 334-337). -/
structure ClaveAB where
  fecha : Nat
  proveedor : String
  tipoElemento : String
  distrito : String
  avenida : String
  nroCalle : String
  orientacionVia : String
  marca : String
deriving DecidableEq, Inhabited

/-- Truncated-name secondary aggregation key: `z_cols` (lines 348-351),
whose name component is `NB_EXTRAE_6_7`. -/
structure ClaveZ where
  nb : String
  proveedor : String
  tipoElemento : String
  distrito : String
  avenida : String
  nroCalle : String
  orientacionVia : String
  marca : String
deriving DecidableEq, Inhabited

def cuKey (r : OutRow) : CodigoUnico :=
  ⟨r.mes, r.anio, r.latitud, r.longitud, r.avenida, r.nroCalle, r.marca,
   r.tipoElemento, r.orientacionVia, r.tarifa, r.proveedor, r.distrito, r.codProveedor⟩

def piezaKey (r : OutRow) : CodigoPieza :=
  ⟨r.nombreBase, r.proveedor, r.tipoElemento, r.distrito, r.orientacionVia, r.nroCalle,
   r.item, r.version, r.latitud, r.longitud, r.categoria, r.tarifa, r.anunciante,
   r.mes, r.anio, r.semana⟩

def abKey (r : OutRow) : ClaveAB :=
  ⟨r.fecha, r.proveedor, r.tipoElemento, r.distrito, r.avenida, r.nroCalle,
   r.orientacionVia, r.marca⟩

/-- `NB_EXTRAE_6_7`: Python `NombreBase[5:12]` (line 343), i.e. the characters
at 0-based indices 5 through 11 of the base name. -/
def nbExtrae67 (s : String) : String :=
  ⟨(s.toList.drop 5).take 7⟩

def zKey (r : OutRow) : ClaveZ :=
  ⟨nbExtrae67 r.nombreBase, r.proveedor, r.tipoElemento, r.distrito, r.avenida,
   r.nroCalle, r.orientacionVia, r.marca⟩

/-- Row access: the row at position `i` (rows are kept in input order, like
the DataFrame index). -/
def nth (rows : List OutRow) (i : Nat) : OutRow :=
  rows.getD i default

/-- `s.map(s.value_counts())` for a key column: the number of rows of the
table whose key equals the key of row `i`. -/
def keyCount {κ : Type} [DecidableEq κ] (key : OutRow → κ) (rows : List OutRow) (i : Nat) : Nat :=
  (rows.map key).count (key (nth rows i))

/-- Column "Denominador" (line 301): the size of row `i`'s PlacementIdentity
group. -/
def denominador (rows : List OutRow) (i : Nat) : Nat :=
  keyCount cuKey rows i

/-- Column "+1 superficie" (line 306): the size of row `i`'s PieceIdentity
group. -/
def masUnaSuperficie (rows : List OutRow) (i : Nat) : Nat :=
  keyCount piezaKey rows i

/-- `tarifa_num` (line 308): `pd.to_numeric(...).fillna(0.0)`. -/
def tarifaNum (rows : List OutRow) (i : Nat) : ℚ :=
  (nth rows i).tarifa.getD 0

/-- `first_in_piece` (line 309): `groupby(s_c1).cumcount() == 0`, i.e. row `i`
is the first row of its PieceIdentity group **in DataFrame order** (no sort
is applied before this groupby). -/
def firstInPiece (rows : List OutRow) (i : Nat) : Bool :=
  ((rows.take i).map piezaKey).count (piezaKey (nth rows i)) = 0

/-- Column "Tarifa × Superficie" (lines 311-312): rate × piece-group size on
the first row of the piece group, else 0; then the whole column is scaled by
`factor_outview` and divided by 3.8 (= 19/5). -/
def tarifaSuperficie (factor : ℚ) (rows : List OutRow) (i : Nat) : ℚ :=
  (if firstInPiece rows i then tarifaNum rows i * (masUnaSuperficie rows i : ℚ) else 0)
    * factor / (19/5)

/-- Column "Conteo_AB_AI" (lines 334-339): size of row `i`'s exact-date
secondary group. -/
def conteoABAI (rows : List OutRow) (i : Nat) : Nat :=
  keyCount abKey rows i

/-- Column "Conteo_Z_AB_AI" (lines 348-353): size of row `i`'s truncated-name
secondary group. -/
def conteoZABAI (rows : List OutRow) (i : Nat) : Nat :=
  keyCount zKey rows i

/-- Column "TarifaS_div3" (line 355). -/
def tarifaSDiv3 (rows : List OutRow) (i : Nat) : ℚ :=
  tarifaNum rows i / 3

/-- Column "TarifaS_div3_sobre_Conteo" (line 356). -/
def tarifaSDiv3SobreConteo (rows : List OutRow) (i : Nat) : ℚ :=
  tarifaSDiv3 rows i / (conteoABAI rows i : ℚ)

/-- Column "Suma_AM_Z_AB_AI" (lines 358-359): `groupby(k_z).sum()` mapped
back to every row — the sum of `TarifaS_div3_sobre_Conteo` over the rows
sharing row `i`'s truncated-name key. -/
def sumaAMZABAI (rows : List OutRow) (i : Nat) : ℚ :=
  (((List.range rows.length).filter fun j => zKey (nth rows j) = zKey (nth rows i)).map
    fun j => tarifaSDiv3SobreConteo rows j).sum

/-- The static `tipo_to_base` cap table (lines 362-367). -/
def tipoToBase : List (String × ℚ) :=
  [("BANDEROLA", 12000), ("CLIP", 600), ("MINIPOLAR", 1000), ("PALETA", 600),
   ("PANEL", 1825), ("PANEL CARRETERO", 5000), ("PANTALLA LED", 5400),
   ("PARADERO", 800), ("PRISMA", 2800), ("QUIOSCO", 600), ("RELOJ", 840),
   ("TORRE UNIPOLAR", 3000), ("TOTEM", 950), ("VALLA", 600), ("VALLA ALTA", 1300)]

/-- Python `str.upper()` modelled per character (the values involved are
ASCII). -/
def strUpper (s : String) : String :=
  ⟨s.toList.map Char.toUpper⟩

/-- `tipo_up` (line 368): uppercased element type of row `i`. -/
def tipoUp (rows : List OutRow) (i : Nat) : String :=
  strUpper (nth rows i).tipoElemento

/-- Column "TopeTipo_AQ" (lines 369, 371): base cap × 4/3; `none` models the
NaN produced by `map` for a type absent from the table. -/
def topeTipo (rows : List OutRow) (i : Nat) : Option ℚ :=
  (tipoToBase.lookup (tipoUp rows i)).map (· * (4/3))

/-- Column "Suma_AM_Topada_Tipo" (line 372): `np.where(isnan(tope), an_val,
minimum(an_val, tope))`. -/
def sumaAMTopadaTipo (rows : List OutRow) (i : Nat) : ℚ :=
  match topeTipo rows i with
  | none => sumaAMZABAI rows i
  | some t => min (sumaAMZABAI rows i) t

/-- The guarded division of lines 375-379: `np.where(denom > 0, x / denom, 0.0)`. -/
def guardDiv (x d : ℚ) : ℚ :=
  if 0 < d then x / d else 0

/-- Column "SumaTopada_div_ConteoZ" (lines 374-379). -/
def sumaTopadaDivConteoZ (rows : List OutRow) (i : Nat) : ℚ :=
  guardDiv (sumaAMTopadaTipo rows i) (conteoZABAI rows i : ℚ)

/-- Column "Tarifa Real ($)" (lines 380-384): ×0.4 for "PANTALLA LED",
×0.8 otherwise. -/
def tarifaReal (rows : List OutRow) (i : Nat) : ℚ :=
  if tipoUp rows i = "PANTALLA LED" then sumaTopadaDivConteoZ rows i * (2/5)
  else sumaTopadaDivConteoZ rows i * (4/5)

/-- Indices of the rows with non-zero "Tarifa × Superficie" (`df_pieces`,
line 326). -/
def piecesIdx (factor : ℚ) (rows : List OutRow) : List Nat :=
  (List.range rows.length).filter fun j => tarifaSuperficie factor rows j ≠ 0

/-- `per_count` (line 328): the number of non-zero rows in a
PlacementIdentity group. -/
def perCount (factor : ℚ) (rows : List OutRow) (k : CodigoUnico) : Nat :=
  (piecesIdx factor rows).countP fun j => cuKey (nth rows j) = k

/-- `per_first` (line 327): the first (in order) non-zero surface-weighted
rate of a PlacementIdentity group, when one exists. -/
def perFirst (factor : ℚ) (rows : List OutRow) (k : CodigoUnico) : Option ℚ :=
  ((piecesIdx factor rows).find? fun j => cuKey (nth rows j) = k).map
    fun j => tarifaSuperficie factor rows j

/-- `per_value` (lines 329-330): first non-zero rate ÷ non-zero count, `none`
modelling NaN for groups with no non-zero row. -/
def perValue (factor : ℚ) (rows : List OutRow) (k : CodigoUnico) : Option ℚ :=
  (perFirst factor rows k).map fun v => v / (perCount factor rows k : ℚ)

end Mougli

namespace Mougli

-- ───────────────────────── helper lemmas ─────────────────────────

theorem count_map_eq_length_filter {α κ : Type} [DecidableEq κ] (f : α → κ) (k : κ)
    (l : List α) : (l.map f).count k = (l.filter fun a => f a = k).length := by
  induction l with
  | nil => rfl
  | cons a t ih =>
      by_cases h : f a = k <;> simp_all [List.count_cons, List.filter_cons, h]

theorem keyCount_eq_length_filter {κ : Type} [DecidableEq κ] (key : OutRow → κ)
    (rows : List OutRow) (i : Nat) :
    keyCount key rows i = (rows.filter fun r => key r = key (nth rows i)).length :=
  count_map_eq_length_filter key (key (nth rows i)) rows

theorem keyCount_pos {κ : Type} [DecidableEq κ] (key : OutRow → κ)
    (rows : List OutRow) (i : Nat) (h : i < rows.length) :
    1 ≤ keyCount key rows i := by
  unfold keyCount
  have hm : key (nth rows i) ∈ rows.map key := by
    refine List.mem_map.mpr ⟨nth rows i, ?_, rfl⟩
    unfold nth
    rw [List.getD_eq_getElem rows default h]
    exact rows.getElem_mem h
  exact List.count_pos_iff.mpr hm

end Mougli

-- ───────────────────────── C6 ─────────────────────────

/-- **C6.** For every placement table, every row belonging to a
PlacementIdentity group (equal values on the 13 identity fields) of size `n`
has "Denominador" = `n`: the `Denominador` of row `i` equals the number of
rows of the table whose 13-field identity tuple equals row `i`'s. -/
theorem C6_denominador_es_tam_grupo (rows : List Mougli.OutRow) (i : Nat)
    (_h : i < rows.length) (n : Nat)
    (hn : (rows.filter fun r => Mougli.cuKey r = Mougli.cuKey (Mougli.nth rows i)).length = n) :
    Mougli.denominador rows i = n := by
  rw [← hn]
  exact Mougli.keyCount_eq_length_filter Mougli.cuKey rows i

namespace Mougli

def filaEj : OutRow :=
  { fecha := 10, mes := "enero", anio := 2024, semana := 2, latitud := 1, longitud := 2,
    avenida := "AV A", nroCalle := "100", marca := "M1", tipoElemento := "Panel",
    orientacionVia := "N", tarifa := some 100, proveedor := "P1", distrito := "LIMA",
    codProveedor := "C1", nombreBase := "BASE01ABCDEF", item := "I", version := "V",
    categoria := "CAT", anunciante := "AN", }

def filaEj2 : OutRow :=
  { filaEj with marca := "M2", fecha := 11 }

end Mougli

/-- Witness for C6: in the concrete table `[filaEj, filaEj, filaEj2]` the
first row's PlacementIdentity group has size 2 and its `Denominador` is 2. -/
theorem C6_denominador_es_tam_grupo_witness :
    Mougli.denominador [Mougli.filaEj, Mougli.filaEj, Mougli.filaEj2] 0 = 2 :=
  C6_denominador_es_tam_grupo [Mougli.filaEj, Mougli.filaEj, Mougli.filaEj2] 0
    (by decide) 2 (by decide)

namespace Mougli

theorem firstInPiece_iff (rows : List OutRow) (i : Nat) (h : i < rows.length) :
    firstInPiece rows i = true ↔
      ∀ j, j < i → piezaKey (nth rows j) ≠ piezaKey (nth rows i) := by
  unfold firstInPiece
  rw [decide_eq_true_iff, List.count_eq_zero]
  constructor
  · intro hnm j hj heq
    apply hnm
    refine List.mem_map.mpr ⟨nth rows j, ?_, heq⟩
    have hj' : j < rows.length := lt_trans hj h
    have hlen : j < (rows.take i).length := by
      simp only [List.length_take]
      omega
    have hgt : (rows.take i)[j] = rows[j] := List.getElem_take ..
    have hmem : (rows.take i)[j] ∈ rows.take i := List.getElem_mem hlen
    rw [hgt] at hmem
    rw [nth, List.getD_eq_getElem rows default hj']
    exact hmem
  · intro hall hmem
    obtain ⟨x, hx, hkey⟩ := List.mem_map.mp hmem
    obtain ⟨j, hjlen, hget⟩ := List.mem_iff_getElem.mp hx
    have hjlen' : j < i ∧ j < rows.length := by
      simp only [List.length_take] at hjlen
      omega
    refine hall j hjlen'.1 ?_
    rw [nth, List.getD_eq_getElem rows default hjlen'.2]
    have hgt : (rows.take i)[j] = rows[j] := List.getElem_take ..
    rw [← hgt, hget, hkey]

end Mougli

-- ───────────────────────── C1 (amended) ─────────────────────────

/-- **C1 (amended).** For every placement table, a row's "Tarifa × Superficie"
equals rate × PieceIdentity-group size, scaled by the configurable surface
factor and divided by 3.8, on the first row of its PieceIdentity group **in
input (DataFrame) order** — not ordered by date — and equals 0 on every other
row of the group; the "+1 surface" column is the PieceIdentity group size. -/
theorem C1_tarifa_superficie_primera_ocurrencia (factor : ℚ) (rows : List Mougli.OutRow)
    (i : Nat) (h : i < rows.length) :
    Mougli.masUnaSuperficie rows i =
      (rows.filter fun r => Mougli.piezaKey r = Mougli.piezaKey (Mougli.nth rows i)).length ∧
    ((∀ j, j < i → Mougli.piezaKey (Mougli.nth rows j) ≠ Mougli.piezaKey (Mougli.nth rows i)) →
      Mougli.tarifaSuperficie factor rows i =
        Mougli.tarifaNum rows i * (Mougli.masUnaSuperficie rows i : ℚ) * factor / (19/5)) ∧
    ((∃ j, j < i ∧ Mougli.piezaKey (Mougli.nth rows j) = Mougli.piezaKey (Mougli.nth rows i)) →
      Mougli.tarifaSuperficie factor rows i = 0) := by
  refine ⟨Mougli.keyCount_eq_length_filter Mougli.piezaKey rows i, ?_, ?_⟩
  · intro hfirst
    have hb : Mougli.firstInPiece rows i = true :=
      (Mougli.firstInPiece_iff rows i h).mpr hfirst
    unfold Mougli.tarifaSuperficie
    rw [hb]
    simp
  · rintro ⟨j, hj, hkey⟩
    have hb : ¬ Mougli.firstInPiece rows i = true := by
      intro hb
      exact ((Mougli.firstInPiece_iff rows i h).mp hb) j hj hkey
    unfold Mougli.tarifaSuperficie
    rw [Bool.not_eq_true] at hb
    rw [hb]
    simp

namespace Mougli

/-- Three rows of one piece: identical PieceIdentity fields, distinct dates,
in increasing date order. -/
def piezaA : OutRow :=
  { filaEj with nombreBase := "BASEPIEZA01", tarifa := some 100 }

def tablaC1 : List OutRow :=
  [piezaA, { piezaA with fecha := 20 }, { piezaA with fecha := 30 }]

/-- Two rows of one piece with the dates in **decreasing** order. -/
def tablaC1x : List OutRow :=
  [{ piezaA with fecha := 20 }, { piezaA with fecha := 10 }]

end Mougli

/-- Witness for C1: in a 3-row table of one piece, `+1 superficie` is 3 for
the first row, and with surface factor 19/5 the first row's surface-weighted
rate is 100 × 3 × (19/5) / (19/5) = 300 while the second row's is 0. -/
theorem C1_tarifa_superficie_primera_ocurrencia_witness :
    Mougli.masUnaSuperficie Mougli.tablaC1 0 = 3 ∧
    Mougli.tarifaSuperficie (19/5) Mougli.tablaC1 0 = 300 ∧
    Mougli.tarifaSuperficie (19/5) Mougli.tablaC1 1 = 0 := by
  have h0 := C1_tarifa_superficie_primera_ocurrencia (19/5) Mougli.tablaC1 0 (by decide)
  have h1 := C1_tarifa_superficie_primera_ocurrencia (19/5) Mougli.tablaC1 1 (by decide)
  refine ⟨by decide, ?_, ?_⟩
  · have := h0.2.1 (fun j hj => absurd hj (Nat.not_lt_zero j))
    rw [this]
    have ht : Mougli.tarifaNum Mougli.tablaC1 0 = 100 := by decide
    have hs : Mougli.masUnaSuperficie Mougli.tablaC1 0 = 3 := by decide
    rw [ht, hs]
    norm_num
  · exact h1.2.2 ⟨0, by decide, by decide⟩

/-- Counterexample to C1 as stated: with two rows of the same piece whose
dates decrease, the non-zero surface-weighted rate is on the *first input
row* (the later-dated one), and the earliest-dated row gets 0 — the
first-occurrence flag is not ordered by date. -/
theorem C1_counterexample :
    (Mougli.nth Mougli.tablaC1x 1).fecha < (Mougli.nth Mougli.tablaC1x 0).fecha ∧
    Mougli.tarifaSuperficie 1 Mougli.tablaC1x 1 = 0 ∧
    Mougli.tarifaSuperficie 1 Mougli.tablaC1x 0 ≠ 0 := by
  refine ⟨by decide, ?_, ?_⟩
  · have hb : Mougli.firstInPiece Mougli.tablaC1x 1 = false := by decide
    unfold Mougli.tarifaSuperficie
    rw [hb]
    simp
  · have hb : Mougli.firstInPiece Mougli.tablaC1x 0 = true := by decide
    have ht : Mougli.tarifaNum Mougli.tablaC1x 0 = 100 := by decide
    have hs : Mougli.masUnaSuperficie Mougli.tablaC1x 0 = 2 := by decide
    unfold Mougli.tarifaSuperficie
    rw [hb, ht, hs]
    norm_num

-- ───────────────────────── C2 ─────────────────────────

/-- **C2.** For every placement row whose uppercased element type has a
cap-table entry with base `b`, the capped sum "Suma_AM_Topada_Tipo" equals
min(aggregated secondary-group sum, b × 4/3) and hence is ≤ the scaled cap;
for element types absent from the cap table it equals the raw aggregated sum
exactly; and "Tarifa Real ($)" equals the capped sum ÷ the truncated-key
secondary-group count (0 when that count is 0), × 0.4 (= 2/5) for
"PANTALLA LED" and × 0.8 (= 4/5) for every other type. -/
theorem C2_tope_y_tarifa_real (rows : List Mougli.OutRow) (i : Nat)
    (_h : i < rows.length) :
    (∀ b : ℚ, Mougli.tipoToBase.lookup (Mougli.tipoUp rows i) = some b →
        Mougli.sumaAMTopadaTipo rows i = min (Mougli.sumaAMZABAI rows i) (b * (4/3)) ∧
        Mougli.sumaAMTopadaTipo rows i ≤ b * (4/3)) ∧
    (Mougli.tipoToBase.lookup (Mougli.tipoUp rows i) = none →
        Mougli.sumaAMTopadaTipo rows i = Mougli.sumaAMZABAI rows i) ∧
    Mougli.tarifaReal rows i =
      (if 0 < Mougli.conteoZABAI rows i then
          Mougli.sumaAMTopadaTipo rows i / (Mougli.conteoZABAI rows i : ℚ) else 0) *
        (if Mougli.tipoUp rows i = "PANTALLA LED" then 2/5 else 4/5) := by
  refine ⟨?_, ?_, ?_⟩
  · intro b hb
    simp only [Mougli.sumaAMTopadaTipo, Mougli.topeTipo, hb, Option.map_some']
    exact ⟨trivial, min_le_right _ _⟩
  · intro hb
    simp only [Mougli.sumaAMTopadaTipo, Mougli.topeTipo, hb, Option.map_none']
  · unfold Mougli.tarifaReal Mougli.sumaTopadaDivConteoZ Mougli.guardDiv
    by_cases hc : 0 < Mougli.conteoZABAI rows i
    · have hc' : (0 : ℚ) < (Mougli.conteoZABAI rows i : ℚ) := by exact_mod_cast hc
      by_cases ht : Mougli.tipoUp rows i = "PANTALLA LED" <;> simp [ht, hc, hc']
    · have hc' : ¬ (0 : ℚ) < (Mougli.conteoZABAI rows i : ℚ) := by
        intro hlt
        exact hc (by exact_mod_cast hlt)
      by_cases ht : Mougli.tipoUp rows i = "PANTALLA LED" <;> simp [ht, hc, hc']

/-- Witness for C2: the example row has element type "Panel", uppercased
"PANEL", whose cap entry is 1825, so its capped sum is ≤ 1825 × 4/3; and its
count is positive so the final rate is the ×0.8 branch of the product form. -/
theorem C2_tope_y_tarifa_real_witness :
    Mougli.sumaAMTopadaTipo [Mougli.filaEj] 0 ≤ 1825 * (4/3) ∧
    Mougli.tarifaReal [Mougli.filaEj] 0 =
      (if 0 < Mougli.conteoZABAI [Mougli.filaEj] 0 then
          Mougli.sumaAMTopadaTipo [Mougli.filaEj] 0 / (Mougli.conteoZABAI [Mougli.filaEj] 0 : ℚ)
        else 0) *
        (if Mougli.tipoUp [Mougli.filaEj] 0 = "PANTALLA LED" then 2/5 else 4/5) := by
  have h := C2_tope_y_tarifa_real [Mougli.filaEj] 0 (by decide)
  exact ⟨(h.1 1825 (by decide)).2, h.2.2⟩

-- ───────────────────────── C4 (amended) ─────────────────────────

/-- **C4 (amended).** The truncated-name secondary aggregation pass groups
rows by an 8-field key whose name component is the substring of the base name
at character positions 6-12 (Python slice `[5:12]`, **up to 7 characters**,
not 6); for every row "Conteo_Z_AB_AI" is the size of its group and
"Suma_AM_Z_AB_AI" is the sum over the group of (rate/3) ÷ exact-date-key
group count. -/
theorem C4_agregacion_truncada (rows : List Mougli.OutRow) (i : Nat)
    (_h : i < rows.length) :
    (Mougli.zKey (Mougli.nth rows i)).nb =
      Mougli.nbExtrae67 ((Mougli.nth rows i).nombreBase) ∧
    (∀ s : String, (Mougli.nbExtrae67 s).toList = (s.toList.drop 5).take 7) ∧
    Mougli.conteoZABAI rows i =
      (rows.filter fun r => Mougli.zKey r = Mougli.zKey (Mougli.nth rows i)).length ∧
    Mougli.sumaAMZABAI rows i =
      (((List.range rows.length).filter fun j =>
          Mougli.zKey (Mougli.nth rows j) = Mougli.zKey (Mougli.nth rows i)).map
        fun j => Mougli.tarifaNum rows j / 3 / (Mougli.conteoABAI rows j : ℚ)).sum := by
  exact ⟨rfl, fun s => rfl, Mougli.keyCount_eq_length_filter Mougli.zKey rows i, rfl⟩

namespace Mougli

def filaC4 : OutRow := { filaEj with nombreBase := "ABCDEFGHIJKLM" }

end Mougli

/-- Counterexample to C4 as stated: for a 13-character base name the name
component of the truncated key has 7 characters, not 6. -/
theorem C4_counterexample :
    (Mougli.zKey Mougli.filaC4).nb = "FGHIJKL" ∧
    (Mougli.zKey Mougli.filaC4).nb.length ≠ 6 := by
  decide

/-- Witness for C4: a concrete instantiation of the amended claim on a
one-row table. -/
theorem C4_agregacion_truncada_witness :
    (Mougli.zKey (Mougli.nth [Mougli.filaC4] 0)).nb =
      Mougli.nbExtrae67 ((Mougli.nth [Mougli.filaC4] 0).nombreBase) ∧
    Mougli.conteoZABAI [Mougli.filaC4] 0 =
      ([Mougli.filaC4].filter fun r =>
        Mougli.zKey r = Mougli.zKey (Mougli.nth [Mougli.filaC4] 0)).length := by
  have h := C4_agregacion_truncada [Mougli.filaC4] 0 (by decide)
  exact ⟨h.1, h.2.2.1⟩

-- ───────────────────────── C9 ─────────────────────────

/-- **C9.** No division of the identity/grouping and rate-cap computations
can divide by zero: every row's own exact-date and truncated-key group counts
(the denominators of "TarifaS_div3_sobre_Conteo") are at least 1, as are the
`Denominador` and "+1 superficie" group sizes; the division of lines 375-379
is explicitly guarded to return 0 on a zero denominator; and the per-identity
allocation `per_value` only divides by `per_count` when the group has at
least one non-zero row. -/
theorem C9_divisiones_seguras :
    (∀ (rows : List Mougli.OutRow) (i : Nat), i < rows.length →
        1 ≤ Mougli.conteoABAI rows i ∧ 1 ≤ Mougli.conteoZABAI rows i ∧
        1 ≤ Mougli.denominador rows i ∧ 1 ≤ Mougli.masUnaSuperficie rows i) ∧
    (∀ x : ℚ, Mougli.guardDiv x 0 = 0) ∧
    (∀ (factor : ℚ) (rows : List Mougli.OutRow) (k : Mougli.CodigoUnico) (v : ℚ),
        Mougli.perValue factor rows k = some v → 1 ≤ Mougli.perCount factor rows k) := by
  refine ⟨?_, ?_, ?_⟩
  · intro rows i h
    exact ⟨Mougli.keyCount_pos _ rows i h, Mougli.keyCount_pos _ rows i h,
           Mougli.keyCount_pos _ rows i h, Mougli.keyCount_pos _ rows i h⟩
  · intro x
    simp [Mougli.guardDiv]
  · intro factor rows k v hv
    unfold Mougli.perValue Mougli.perFirst at hv
    cases hfind : (Mougli.piecesIdx factor rows).find?
        (fun j => Mougli.cuKey (Mougli.nth rows j) = k) with
    | none =>
        rw [hfind] at hv
        simp at hv
    | some j =>
        have hmem := List.mem_of_find?_eq_some hfind
        have hp := List.find?_some hfind
        have hpos : 0 < (Mougli.piecesIdx factor rows).countP
            (fun j => Mougli.cuKey (Mougli.nth rows j) = k) :=
          List.countP_pos_iff.mpr ⟨j, hmem, hp⟩
        exact hpos

/-- Witness for C9: concrete instantiations — on the one-row example table
all group counts are 1, `guardDiv 7 0 = 0`, and the one-piece group has a
defined allocation with positive non-zero count. -/
theorem C9_divisiones_seguras_witness :
    1 ≤ Mougli.conteoABAI [Mougli.filaEj] 0 ∧ Mougli.guardDiv 7 0 = 0 ∧
    1 ≤ Mougli.perCount 1 [Mougli.filaEj] (Mougli.cuKey Mougli.filaEj) := by
  have hb : Mougli.firstInPiece [Mougli.filaEj] 0 = true := by decide
  have ht : Mougli.tarifaNum [Mougli.filaEj] 0 = 100 := by decide
  have hs : Mougli.masUnaSuperficie [Mougli.filaEj] 0 = 1 := by decide
  have hts : Mougli.tarifaSuperficie 1 [Mougli.filaEj] 0 = 500/19 := by
    unfold Mougli.tarifaSuperficie
    rw [hb, ht, hs]
    norm_num
  have hne : Mougli.tarifaSuperficie 1 [Mougli.filaEj] 0 ≠ 0 := by
    rw [hts]
    norm_num
  have hpi : Mougli.piecesIdx 1 [Mougli.filaEj] = [0] := by
    unfold Mougli.piecesIdx
    rw [show List.range [Mougli.filaEj].length = [0] from rfl]
    simp [List.filter_cons, hne]
  have hfind : ((Mougli.piecesIdx 1 [Mougli.filaEj]).find?
      fun j => Mougli.cuKey (Mougli.nth [Mougli.filaEj] j) = Mougli.cuKey Mougli.filaEj) =
      some 0 := by
    rw [hpi]
    decide
  have hpc : Mougli.perCount 1 [Mougli.filaEj] (Mougli.cuKey Mougli.filaEj) = 1 := by
    unfold Mougli.perCount
    rw [hpi]
    decide
  have hv : Mougli.perValue 1 [Mougli.filaEj] (Mougli.cuKey Mougli.filaEj) =
      some (500/19) := by
    unfold Mougli.perValue Mougli.perFirst
    rw [hfind]
    simp [hts, hpc]
  exact ⟨(C9_divisiones_seguras.1 [Mougli.filaEj] 0 (by decide)).1,
         C9_divisiones_seguras.2.1 7,
         C9_divisiones_seguras.2.2 1 [Mougli.filaEj] (Mougli.cuKey Mougli.filaEj) (500/19) hv⟩

-- ───────────────────────── Rate normalizer (_fix_tarifa) ─────────────────────

namespace Mougli

/-- Python whitespace for `str.strip()` (ASCII subset). -/
def isPySpace (c : Char) : Bool :=
  c = ' ' || c = '\t' || c = '\n' || c = '\r' || c = '\x0b' || c = '\x0c'

/-- `str.strip()` on a character list. -/
def stripList (l : List Char) : List Char :=
  ((l.dropWhile isPySpace).reverse.dropWhile isPySpace).reverse

/-- Lookahead `\d{3}(\D|$)` of the regex on line 157: the list starts with
exactly three digits followed by a non-digit or the end. -/
def miles3 : List Char → Bool
  | a :: b :: c :: rest =>
      a.isDigit && b.isDigit && c.isDigit &&
        (match rest with
         | [] => true
         | d :: _ => !d.isDigit)
  | _ => false

/-- The substitution `re.sub(r"(?<=\d)\.(?=\d{3}(\D|$))", "", s)` of line 157:
drop each dot that is preceded by a digit (in the original string) and
followed by exactly three digits and then a non-digit or the end.  `prev` is
the previous character of the original string. -/
def quitaPuntoMiles (prev : Option Char) : List Char → List Char
  | [] => []
  | '.' :: rest =>
      if (match prev with | some p => p.isDigit | none => false) && miles3 rest then
        quitaPuntoMiles (some '.') rest
      else '.' :: quitaPuntoMiles (some '.') rest
  | c :: rest => c :: quitaPuntoMiles (some c) rest

/-- Decompose a decimal string: sign, integer digits value, fraction digits
value and length.  All-`Nat` so concrete instances evaluate by `decide`. -/
def parseParts (l : List Char) : Option (Bool × Nat × Nat × Nat) :=
  let (neg, l₁) : Bool × List Char :=
    match l with
    | '-' :: t => (true, t)
    | '+' :: t => (false, t)
    | t => (false, t)
  let ip := l₁.takeWhile (·.isDigit)
  let rest := l₁.dropWhile (·.isDigit)
  let digitsVal := fun (d : List Char) => d.foldl (fun acc c => acc * 10 + (c.toNat - 48)) 0
  match rest with
  | [] => if ip.isEmpty then none else some (neg, digitsVal ip, 0, 0)
  | '.' :: frac =>
      if frac.all (·.isDigit) && !(ip.isEmpty && frac.isEmpty) then
        some (neg, digitsVal ip, digitsVal frac, frac.length)
      else none
  | _ => none

/-- `pd.to_numeric(_, errors="coerce")` on a decimal string: the parsed exact
value, `none` (NaN) when unparsable. -/
def toNumeric (l : List Char) : Option ℚ :=
  (parseParts l).map fun p =>
    (if p.1 then (-1 : ℚ) else 1) * ((p.2.1 : ℚ) + (p.2.2.1 : ℚ) / 10 ^ p.2.2.2)

/-- `_fix_tarifa` (lines 154-160) applied to one cell: strip, remove
thousands dots, comma → dot, coerce to numeric (unparsable → missing). -/
def fix_tarifa (s : String) : Option ℚ :=
  let t := stripList s.toList
  let t₁ := quitaPuntoMiles none t
  let t₂ := t₁.map fun c => if c = ',' then '.' else c
  toNumeric t₂

/-- Modelled from the claim's words (for comparison with `fix_tarifa`): strip
a dot *followed by exactly three digits*, with no condition on what precedes
the dot. -/
def quitaPuntoMilesClaim : List Char → List Char
  | [] => []
  | '.' :: rest =>
      if miles3 rest then quitaPuntoMilesClaim rest
      else '.' :: quitaPuntoMilesClaim rest
  | c :: rest => c :: quitaPuntoMilesClaim rest

/-- The normalizer as the claim describes it. -/
def fix_tarifa_claim (s : String) : Option ℚ :=
  toNumeric ((quitaPuntoMilesClaim (stripList s.toList)).map fun c => if c = ',' then '.' else c)

theorem toNumeric_of_parts (l : List Char) (neg : Bool) (ip fv k : Nat)
    (h : parseParts l = some (neg, ip, fv, k)) :
    toNumeric l = some ((if neg then (-1 : ℚ) else 1) * ((ip : ℚ) + (fv : ℚ) / 10 ^ k)) := by
  unfold toNumeric
  rw [h]
  rfl

end Mougli

-- ───────────────────────── C7 (amended) ─────────────────────────

/-- Counterexample to C7 as stated: the code's stripping rule also requires a
digit *before* the dot.  On ".123" the claim's rule ("a dot followed by
exactly three digits") strips the dot and yields 123, while the code keeps it
and yields 0.123. -/
theorem C7_counterexample :
    Mougli.fix_tarifa ".123" = some (123/1000) ∧
    Mougli.fix_tarifa_claim ".123" = some 123 ∧
    ((123 : ℚ)/1000) ≠ 123 := by
  refine ⟨?_, ?_, by norm_num⟩
  · have h : Mougli.parseParts ((Mougli.quitaPuntoMiles none
        (Mougli.stripList ".123".toList)).map fun c => if c = ',' then '.' else c) =
        some (false, 0, 123, 3) := by decide
    unfold Mougli.fix_tarifa
    rw [Mougli.toNumeric_of_parts _ _ _ _ _ h]
    norm_num
  · have h : Mougli.parseParts ((Mougli.quitaPuntoMilesClaim
        (Mougli.stripList ".123".toList)).map fun c => if c = ',' then '.' else c) =
        some (false, 123, 0, 0) := by decide
    unfold Mougli.fix_tarifa_claim
    rw [Mougli.toNumeric_of_parts _ _ _ _ _ h]
    norm_num

/-- **C7 (amended).** The rate normalizer strips a thousands-separator dot —
a dot *preceded by a digit* and followed by exactly three digits and then a
non-digit or the end — converts a decimal comma to a dot, and coerces to
numeric with unparsable values becoming missing (`none`), not zero; both
"1.234,56" and "1234.56" (also with surrounding blanks) normalize to 1234.56,
and a dot not preceded by a digit is kept (".123" ↦ 0.123). -/
theorem C7_fix_tarifa_normaliza :
    Mougli.fix_tarifa "1.234,56" = some (123456/100) ∧
    Mougli.fix_tarifa "1234.56" = some (123456/100) ∧
    Mougli.fix_tarifa " 1.234,56 " = some (123456/100) ∧
    Mougli.fix_tarifa ".123" = some (123/1000) ∧
    Mougli.fix_tarifa "abc" = none ∧
    ∀ q : ℚ, some q ≠ (none : Option ℚ) := by
  have e1 : Mougli.parseParts ((Mougli.quitaPuntoMiles none
      (Mougli.stripList "1.234,56".toList)).map fun c => if c = ',' then '.' else c) =
      some (false, 1234, 56, 2) := by decide
  have e2 : Mougli.parseParts ((Mougli.quitaPuntoMiles none
      (Mougli.stripList "1234.56".toList)).map fun c => if c = ',' then '.' else c) =
      some (false, 1234, 56, 2) := by decide
  have e3 : Mougli.parseParts ((Mougli.quitaPuntoMiles none
      (Mougli.stripList " 1.234,56 ".toList)).map fun c => if c = ',' then '.' else c) =
      some (false, 1234, 56, 2) := by decide
  have e4 : Mougli.parseParts ((Mougli.quitaPuntoMiles none
      (Mougli.stripList ".123".toList)).map fun c => if c = ',' then '.' else c) =
      some (false, 0, 123, 3) := by decide
  refine ⟨?_, ?_, ?_, ?_, by decide, fun q h => by simp at h⟩
  all_goals unfold Mougli.fix_tarifa
  · rw [Mougli.toNumeric_of_parts _ _ _ _ _ e1]; norm_num
  · rw [Mougli.toNumeric_of_parts _ _ _ _ _ e2]; norm_num
  · rw [Mougli.toNumeric_of_parts _ _ _ _ _ e3]; norm_num
  · rw [Mougli.toNumeric_of_parts _ _ _ _ _ e4]; norm_num

-- ───────────────────── Factor applicator (_aplicar_factores_monitor) ─────────

namespace Mougli

/-- `str.strip()` on a `String`. -/
def strStrip (s : String) : String :=
  ⟨stripList s.toList⟩

/-- One broadcast (Monitor) row after `_read_monitor_txt`: the DIA and MARCA
columns (used later by the consolidation sort), the MEDIO and INVERSION
columns consumed by the factor applicator, and the remaining passthrough
columns abstracted into `resto`. -/
structure MonRow where
  dia : Option Nat
  marca : Option String
  medio : String
  inversion : ℚ
  resto : List String
deriving DecidableEq, Inhabited

/-- The channel synonym table `mapa` of `fx` (lines 233-239). -/
def fxMapa : List (String × String) :=
  [("TV", "TV"), ("TELEVISION", "TV"),
   ("CABLE", "CABLE"),
   ("RADIO", "RADIO"),
   ("REVISTA", "REVISTA"), ("REVISTAS", "REVISTA"),
   ("DIARIO", "DIARIOS"), ("DIARIOS", "DIARIOS"), ("PRENSA", "DIARIOS")]

/-- `fx` (lines 231-241): uppercase + strip the channel, normalize through the
synonym table, then look the normalized key up in the configured multipliers;
any miss yields multiplier 1.0. -/
def fx (factores : List (String × ℚ)) (m : String) : ℚ :=
  let m' := strStrip (strUpper m)
  match fxMapa.lookup m' with
  | some clave => (factores.lookup clave).getD 1
  | none => 1

/-- `_aplicar_factores_monitor` (lines 226-244): scale each row's INVERSION
by its channel's multiplier.  (The source first copies the frame, so the
input table is never mutated; the embedding is a pure function.) -/
def aplicarFactoresMonitor (df : List MonRow) (factores : List (String × ℚ)) : List MonRow :=
  df.map fun r => { r with inversion := r.inversion * fx factores r.medio }

def nthMon (df : List MonRow) (i : Nat) : MonRow :=
  df.getD i default

end Mougli

-- ───────────────────────── C5 ─────────────────────────

/-- **C5.** The factor applicator multiplies every row's investment by the
configured multiplier of its channel after synonym normalization, uses
multiplier 1.0 for any channel not in the synonym table (it is total, hence
never raises), and on Scenario A — rows {TV, 100} and {RADIO, 200} with
multipliers {TV: 1/2, RADIO: 1/4} — produces investments {50, 50}. -/
theorem C5_factores_por_canal (factores : List (String × ℚ)) (df : List Mougli.MonRow)
    (i : Nat) (_h : i < df.length) :
    (Mougli.nthMon (Mougli.aplicarFactoresMonitor df factores) i).inversion =
      (Mougli.nthMon df i).inversion *
        (match Mougli.fxMapa.lookup (Mougli.strStrip (Mougli.strUpper (Mougli.nthMon df i).medio)) with
         | some clave => (factores.lookup clave).getD 1
         | none => 1) ∧
    (Mougli.fxMapa.lookup (Mougli.strStrip (Mougli.strUpper (Mougli.nthMon df i).medio)) = none →
      (Mougli.nthMon (Mougli.aplicarFactoresMonitor df factores) i).inversion =
        (Mougli.nthMon df i).inversion) ∧
    Mougli.aplicarFactoresMonitor
        [⟨none, none, "TV", 100, []⟩, ⟨none, none, "RADIO", 200, []⟩]
        [("TV", 1/2), ("RADIO", 1/4)] =
      [⟨none, none, "TV", 50, []⟩, ⟨none, none, "RADIO", 50, []⟩] := by
  have hget : Mougli.nthMon (Mougli.aplicarFactoresMonitor df factores) i =
      { Mougli.nthMon df i with
          inversion := (Mougli.nthMon df i).inversion * Mougli.fx factores (Mougli.nthMon df i).medio } := by
    unfold Mougli.nthMon Mougli.aplicarFactoresMonitor
    rw [List.getD_eq_getElem _ default (by simpa using _h), List.getElem_map,
        List.getD_eq_getElem _ default _h]
  refine ⟨?_, ?_, ?_⟩
  · rw [hget]
    rfl
  · intro hnone
    rw [hget]
    show (Mougli.nthMon df i).inversion * Mougli.fx factores (Mougli.nthMon df i).medio = _
    simp only [Mougli.fx, hnone]
    exact mul_one _
  · have hTV : Mougli.fx [("TV", (1 : ℚ)/2), ("RADIO", (1 : ℚ)/4)] "TV" = 1/2 := by
      unfold Mougli.fx
      rw [show Mougli.strStrip (Mougli.strUpper "TV") = "TV" from by decide]
      rfl
    have hRA : Mougli.fx [("TV", (1 : ℚ)/2), ("RADIO", (1 : ℚ)/4)] "RADIO" = 1/4 := by
      unfold Mougli.fx
      rw [show Mougli.strStrip (Mougli.strUpper "RADIO") = "RADIO" from by decide]
      rfl
    simp only [Mougli.aplicarFactoresMonitor, List.map_cons, List.map_nil, hTV, hRA]
    norm_num

/-- Witness for C5 at a concrete table: an unmapped channel ("WEB") keeps its
investment unchanged. -/
theorem C5_factores_por_canal_witness :
    (Mougli.nthMon (Mougli.aplicarFactoresMonitor [⟨none, none, "WEB", 77, []⟩]
        [("TV", 1/2)]) 0).inversion =
      (Mougli.nthMon [(⟨none, none, "WEB", 77, []⟩ : Mougli.MonRow)] 0).inversion := by
  exact (C5_factores_por_canal [("TV", 1/2)] [⟨none, none, "WEB", 77, []⟩] 0
    (by decide)).2.1 (by decide)

-- ───────────────────────── C10 ─────────────────────────

/-- **C10.** The factor applicator changes only the investment column: the
output has the same number of rows in the same order and every field other
than `inversion` equal to the input's.  (The input itself is untouched: the
source copies the frame before assigning, and the embedding is pure.) -/
theorem C10_solo_cambia_inversion (df : List Mougli.MonRow) (factores : List (String × ℚ)) :
    (Mougli.aplicarFactoresMonitor df factores).length = df.length ∧
    ∀ i, i < df.length →
      (Mougli.nthMon (Mougli.aplicarFactoresMonitor df factores) i).dia =
        (Mougli.nthMon df i).dia ∧
      (Mougli.nthMon (Mougli.aplicarFactoresMonitor df factores) i).marca =
        (Mougli.nthMon df i).marca ∧
      (Mougli.nthMon (Mougli.aplicarFactoresMonitor df factores) i).medio =
        (Mougli.nthMon df i).medio ∧
      (Mougli.nthMon (Mougli.aplicarFactoresMonitor df factores) i).resto =
        (Mougli.nthMon df i).resto := by
  constructor
  · exact List.length_map df _
  · intro i hi
    have hget : Mougli.nthMon (Mougli.aplicarFactoresMonitor df factores) i =
        { Mougli.nthMon df i with
            inversion := (Mougli.nthMon df i).inversion * Mougli.fx factores (Mougli.nthMon df i).medio } := by
      unfold Mougli.nthMon Mougli.aplicarFactoresMonitor
      rw [List.getD_eq_getElem _ default (by simpa using hi), List.getElem_map,
          List.getD_eq_getElem _ default hi]
    rw [hget]
    exact ⟨rfl, rfl, rfl, rfl⟩

/-- Witness for C10 on a concrete one-row table. -/
theorem C10_solo_cambia_inversion_witness :
    (Mougli.aplicarFactoresMonitor [⟨some 3, some "M", "TV", 100, ["x"]⟩]
        [("TV", 1/2)]).length = 1 ∧
    (Mougli.nthMon (Mougli.aplicarFactoresMonitor [⟨some 3, some "M", "TV", 100, ["x"]⟩]
        [("TV", 1/2)]) 0).medio = "TV" := by
  have h := C10_solo_cambia_inversion [⟨some 3, some "M", "TV", 100, ["x"]⟩] [("TV", 1/2)]
  exact ⟨h.1, ((h.2 0 (by decide)).2.2.1).trans (by decide)⟩

-- ───────────────────── Broadcast parser (_read_monitor_txt) ──────────────────

namespace Mougli

/-- A UTF-8 continuation byte. -/
def utf8Cont (b : Nat) : Bool :=
  0x80 ≤ b && b < 0xC0

/-- Strict UTF-8 decoding of a byte list, rejecting invalid lead bytes,
truncated sequences, overlong encodings, surrogates and out-of-range code
points (as Python's "utf-8" codec does); `none` on any invalid input. -/
def utf8Decode : List Nat → Option (List Char)
  | [] => some []
  | b :: rest =>
      if b < 0x80 then
        (utf8Decode rest).map (Char.ofNat b :: ·)
      else if b < 0xC2 then none
      else if b ≤ 0xDF then
        match rest with
        | c1 :: rest2 =>
            if utf8Cont c1 then
              (utf8Decode rest2).map (Char.ofNat ((b - 0xC0) * 0x40 + (c1 - 0x80)) :: ·)
            else none
        | [] => none
      else if b ≤ 0xEF then
        match rest with
        | c1 :: c2 :: rest2 =>
            let cp := (b - 0xE0) * 0x1000 + (c1 - 0x80) * 0x40 + (c2 - 0x80)
            if utf8Cont c1 && utf8Cont c2 && decide (0x800 ≤ cp) &&
                !(decide (0xD800 ≤ cp) && decide (cp ≤ 0xDFFF)) then
              (utf8Decode rest2).map (Char.ofNat cp :: ·)
            else none
        | _ => none
      else if b ≤ 0xF4 then
        match rest with
        | c1 :: c2 :: c3 :: rest2 =>
            let cp := (b - 0xF0) * 0x40000 + (c1 - 0x80) * 0x1000 +
                      (c2 - 0x80) * 0x40 + (c3 - 0x80)
            if utf8Cont c1 && utf8Cont c2 && utf8Cont c3 &&
                decide (0x10000 ≤ cp) && decide (cp ≤ 0x10FFFF) then
              (utf8Decode rest2).map (Char.ofNat cp :: ·)
            else none
        | _ => none
      else none

/-- "utf-8-sig": UTF-8 with an optional BOM (EF BB BF) stripped. -/
def utf8SigDecode (b : List Nat) : Option (List Char) :=
  match b with
  | 0xEF :: 0xBB :: 0xBF :: rest => utf8Decode rest
  | _ => utf8Decode b

/-- "latin-1": every byte decodes to the character of its code point, so this
decoding never fails. -/
def latin1Decode (b : List Nat) : Option (List Char) :=
  some (b.map Char.ofNat)

/-- Windows-1252 mapping of the bytes 0x80-0x9F that differ from latin-1. -/
def cp1252Alto (b : Nat) : Nat :=
  if b = 0x80 then 0x20AC else if b = 0x82 then 0x201A else if b = 0x83 then 0x0192
  else if b = 0x84 then 0x201E else if b = 0x85 then 0x2026 else if b = 0x86 then 0x2020
  else if b = 0x87 then 0x2021 else if b = 0x88 then 0x02C6 else if b = 0x89 then 0x2030
  else if b = 0x8A then 0x0160 else if b = 0x8B then 0x2039 else if b = 0x8C then 0x0152
  else if b = 0x8E then 0x017D else if b = 0x91 then 0x2018 else if b = 0x92 then 0x2019
  else if b = 0x93 then 0x201C else if b = 0x94 then 0x201D else if b = 0x95 then 0x2022
  else if b = 0x96 then 0x2013 else if b = 0x97 then 0x2014 else if b = 0x98 then 0x02DC
  else if b = 0x99 then 0x2122 else if b = 0x9A then 0x0161 else if b = 0x9B then 0x203A
  else if b = 0x9C then 0x0153 else if b = 0x9E then 0x017E else 0x0178

/-- "cp1252": latin-1 with the 0x80-0x9F block remapped; the five undefined
bytes fail. -/
def cp1252Char (b : Nat) : Option Char :=
  if b = 0x81 || b = 0x8D || b = 0x8F || b = 0x90 || b = 0x9D then none
  else if b < 0x80 || 0xA0 ≤ b then some (Char.ofNat b)
  else some (Char.ofNat (cp1252Alto b))

def cp1252Decode (b : List Nat) : Option (List Char) :=
  b.mapM cp1252Char

/-- `_decode_bytes` (lines 69-75): try "utf-8-sig", "latin-1", "cp1252" in
this fixed order, stopping at the first success; raise (`Except.error`) only
when every decoding fails. -/
def decodeBytes (b : List Nat) : Except String (List Char) :=
  match utf8SigDecode b with
  | some s => .ok s
  | none =>
      match latin1Decode b with
      | some s => .ok s
      | none =>
          match cp1252Decode b with
          | some s => .ok s
          | none => .error "No fue posible decodificar el TXT."

/-- The line boundaries of Python `str.splitlines()`. -/
def isSaltoLinea (c : Char) : Bool :=
  c = '\n' || c = '\r' || c = '\x0b' || c = '\x0c' || c = '\x1c' || c = '\x1d' ||
  c = '\x1e' || c = '\x85' || c = '\u2028' || c = '\u2029'

def splitlinesAux (cur : List Char) : List Char → List (List Char)
  | [] => if cur.isEmpty then [] else [cur.reverse]
  | '\r' :: '\n' :: rest => cur.reverse :: splitlinesAux [] rest
  | c :: rest =>
      if isSaltoLinea c then cur.reverse :: splitlinesAux [] rest
      else splitlinesAux (c :: cur) rest

/-- Python `str.splitlines()` (no trailing empty line). -/
def splitlines (l : List Char) : List (List Char) :=
  splitlinesAux [] l

/-- Python `pat in s` substring test. -/
def containsSub (pat s : List Char) : Bool :=
  (List.range (s.length + 1)).any fun i => pat.isPrefixOf (s.drop i)

def medioSentinel : List Char :=
  "|MEDIO|".toList

/-- Result of `_read_monitor_txt` after decoding: either the diagnostic
one-column table of raw lines, or the pipe-separated parse from the header
line on. -/
inductive MonitorParse where
  | diag (lineas : List (List Char))
  | tabla (filas : List (List (List Char)))
deriving DecidableEq

/-- Column width of a pipe-separated line. -/
def anchoFila (l : List Char) : Nat :=
  (l.splitOn '|').length

/-- The field count `pd.read_csv(sep="|", engine="python")` expects of every
data row: the header width, raised when the *first* data row is wider (its
leading extra fields become an implicit index). -/
def anchoEsperado (hdr : List Char) (filas : List (List Char)) : Nat :=
  match filas with
  | [] => anchoFila hdr
  | r :: _ => max (anchoFila hdr) (anchoFila r)

/-- `pd.read_csv(buf, sep="|", engine="python")` of line 106, error path
included: blank lines are skipped (`skip_blank_lines` default), the first
remaining line is the header, a data row wider than the expected width
raises `ParserError` (`on_bad_lines` defaults to `"error"`), and narrower
rows are padded and never raise. -/
def readCsvPipe (lineas : List (List Char)) : Except String (List (List (List Char))) :=
  match lineas.filter (fun l => !l.isEmpty) with
  | [] => .ok []
  | hdr :: filas =>
      if filas.all (fun r => anchoFila r ≤ anchoEsperado hdr filas) then
        .ok ((hdr :: filas).map (List.splitOn '|'))
      else .error "ParserError"

/-- Lines 97-106 of `_read_monitor_txt`: scan the first 80 lines for the
`"|MEDIO|"` sentinel in the uppercased line; if absent, return the diagnostic
one-column table of the lines that are non-blank after stripping; if found at
line `i`, parse `lines[i:]` with `pd.read_csv(sep="|", engine="python")`,
which can raise `ParserError` on a ragged data row. -/
def scanMonitor (text : List Char) : Except String MonitorParse :=
  let lines := splitlines text
  match (lines.take 80).findIdx?
      (fun l => containsSub medioSentinel (l.map Char.toUpper)) with
  | none => .ok (.diag (lines.filter fun l => !(stripList l).isEmpty))
  | some i => (readCsvPipe (lines.drop i)).map MonitorParse.tabla

/-- `_read_monitor_txt` (lines 88-106) on a byte input. -/
def readMonitorTxt (b : List Nat) : Except String MonitorParse :=
  (decodeBytes b).bind scanMonitor

theorem readCsvPipe_error (lineas : List (List Char)) (e : String)
    (h : readCsvPipe lineas = .error e) : e = "ParserError" := by
  unfold readCsvPipe at h
  split at h
  · exact absurd h (by simp)
  · split at h
    · exact absurd h (by simp)
    · injection h with h2
      exact h2.symm

theorem exceptMap_error {α β : Type} (f : α → β) (x : Except String α) (e : String)
    (h : Except.map f x = .error e) : x = .error e := by
  cases x with
  | ok a => exact absurd h (by simp [Except.map])
  | error e2 => simpa [Except.map] using h

theorem scanMonitor_error (text : List Char) (e : String)
    (h : scanMonitor text = .error e) : e = "ParserError" := by
  simp only [scanMonitor] at h
  split at h
  · exact absurd h (by simp)
  · exact readCsvPipe_error _ _ (exceptMap_error _ _ _ h)

end Mougli

-- ───────────────────────── C8 (amended) ─────────────────────────

/-- **C8 (amended).** Decoding never fails: `_decode_bytes` tries "utf-8-sig"
then "latin-1" (then "cp1252") in a fixed priority order stopping at the
first success, and latin-1 accepts every byte; when no line among the first
80 contains the "|MEDIO|" sentinel the parser returns the diagnostic
one-column table of the non-blank raw lines instead of failing.  But the
parser is *not* raise-free on every byte input: when the sentinel is found,
the pipe-delimited parse (`pd.read_csv` with its default
`on_bad_lines="error"`) splits every row when no data row is wider than
expected and raises `ParserError` otherwise — the only error the parser can
produce. -/
theorem C8_decodifica_y_fallo_suave :
    (∀ b : List Nat, ∃ s, Mougli.decodeBytes b = .ok s) ∧
    (∀ (b : List Nat) (s : List Char), Mougli.utf8SigDecode b = some s →
        Mougli.decodeBytes b = .ok s) ∧
    (∀ b : List Nat, Mougli.utf8SigDecode b = none →
        Mougli.decodeBytes b = .ok (b.map Char.ofNat)) ∧
    (∀ text : List Char,
        (∀ l ∈ (Mougli.splitlines text).take 80,
            Mougli.containsSub Mougli.medioSentinel (l.map Char.toUpper) = false) →
        Mougli.scanMonitor text =
          .ok (.diag ((Mougli.splitlines text).filter fun l => !(Mougli.stripList l).isEmpty))) ∧
    (∀ (text : List Char) (i : Nat),
        ((Mougli.splitlines text).take 80).findIdx?
            (fun l => Mougli.containsSub Mougli.medioSentinel (l.map Char.toUpper)) = some i →
        Mougli.scanMonitor text =
          (Mougli.readCsvPipe ((Mougli.splitlines text).drop i)).map Mougli.MonitorParse.tabla) ∧
    (∀ (lineas : List (List Char)) (hdr : List Char) (filas : List (List Char)),
        lineas.filter (fun l => !l.isEmpty) = hdr :: filas →
        ((filas.all fun r => Mougli.anchoFila r ≤ Mougli.anchoEsperado hdr filas) = true →
            Mougli.readCsvPipe lineas = .ok ((hdr :: filas).map (List.splitOn '|'))) ∧
        ((filas.all fun r => Mougli.anchoFila r ≤ Mougli.anchoEsperado hdr filas) = false →
            Mougli.readCsvPipe lineas = .error "ParserError")) ∧
    (∀ (b : List Nat) (e : String), Mougli.readMonitorTxt b = .error e → e = "ParserError") := by
  refine ⟨?_, ?_, ?_, ?_, ?_, ?_, ?_⟩
  · intro b
    unfold Mougli.decodeBytes
    cases Mougli.utf8SigDecode b with
    | some s => exact ⟨s, rfl⟩
    | none => exact ⟨b.map Char.ofNat, rfl⟩
  · intro b s hs
    unfold Mougli.decodeBytes
    rw [hs]
  · intro b hb
    unfold Mougli.decodeBytes
    rw [hb]
    rfl
  · intro text hall
    simp only [Mougli.scanMonitor]
    rw [List.findIdx?_eq_none_iff.mpr hall]
  · intro text i hidx
    simp only [Mougli.scanMonitor]
    rw [hidx]
  · intro lineas hdr filas hf
    constructor
    · intro hall
      unfold Mougli.readCsvPipe
      rw [hf]
      simp [hall]
    · intro hall
      unfold Mougli.readCsvPipe
      rw [hf]
      simp [hall]
  · intro b e h
    have hdec : ∃ s, Mougli.decodeBytes b = .ok s := by
      unfold Mougli.decodeBytes
      cases Mougli.utf8SigDecode b with
      | some s => exact ⟨s, rfl⟩
      | none => exact ⟨b.map Char.ofNat, rfl⟩
    obtain ⟨s, hs⟩ := hdec
    unfold Mougli.readMonitorTxt at h
    rw [hs] at h
    exact Mougli.scanMonitor_error s e h

namespace Mougli

/-- ASCII bytes of a monitor export whose header row "A|MEDIO|B" has 3 fields
and whose second data row has 4. -/
def bytesC8 : List Nat :=
  "A|MEDIO|B\n1|2|3\n1|2|3|4".toList.map Char.toNat

end Mougli

/-- Counterexample to C8 as stated: the broadcast parser *can* raise.  On
`bytesC8` decoding succeeds and the sentinel is found, but the second data
row has more fields than the header (4 > 3, and the first data row raised no
implicit index), so the CSV parse raises `ParserError` instead of returning
a table. -/
theorem C8_counterexample :
    Mougli.readMonitorTxt Mougli.bytesC8 = .error "ParserError" := by
  rfl

/-- Witness for C8: concrete decodes through both decoder branches, a
sentinel-free text yielding the diagnostic table, a found-sentinel text
routed through the CSV parse, and a concrete ragged table raising
`ParserError`. -/
theorem C8_decodifica_y_fallo_suave_witness :
    Mougli.decodeBytes [72, 79, 76, 65] = .ok "HOLA".toList ∧
    Mougli.decodeBytes [72, 255] = .ok [Char.ofNat 72, Char.ofNat 255] ∧
    Mougli.scanMonitor "ab\n \nc".toList =
      .ok (.diag ["ab".toList, "c".toList]) ∧
    Mougli.scanMonitor "A|MEDIO|B\n1|2".toList =
      (Mougli.readCsvPipe ((Mougli.splitlines "A|MEDIO|B\n1|2".toList).drop 0)).map
        Mougli.MonitorParse.tabla ∧
    Mougli.readCsvPipe ["A|B".toList, "1|2".toList, "1|2|3".toList] =
      .error "ParserError" := by
  refine ⟨?_, ?_, ?_, ?_, ?_⟩
  · exact C8_decodifica_y_fallo_suave.2.1 [72, 79, 76, 65] "HOLA".toList (by decide)
  · exact C8_decodifica_y_fallo_suave.2.2.1 [72, 255] (by decide)
  · have h := C8_decodifica_y_fallo_suave.2.2.2.1 "ab\n \nc".toList (by decide)
    rw [h]
    rfl
  · exact C8_decodifica_y_fallo_suave.2.2.2.2.1 "A|MEDIO|B\n1|2".toList 0 (by decide)
  · exact (C8_decodifica_y_fallo_suave.2.2.2.2.2.1
      ["A|B".toList, "1|2".toList, "1|2|3".toList] "A|B".toList
      ["1|2".toList, "1|2|3".toList] (by decide)).2 (by decide)

-- ───────────────── Schema unifier / consolidation (C3) ──────────────────────

namespace Mougli

/-- One row of the 26-field unified reporting schema produced by
`_to_unified` (lines 440-484): the FECHA and MARCA sort keys and the
INVERSIÓN REAL column are kept typed; the remaining canonical fields are
abstracted into `resto` (absent fields become null there). -/
structure URow where
  fecha : Option Nat
  marca : Option String
  inversionReal : Option ℚ
  resto : List String
deriving DecidableEq, Inhabited

/-- `_to_unified(df_m, _MONITOR_MAP)`: DIA→FECHA, MARCA→MARCA,
INVERSION→INVERSIÓN REAL; the other mapped native columns form `resto`. -/
def toUnifiedMon (r : MonRow) : URow :=
  ⟨r.dia, r.marca, some r.inversion, r.medio :: r.resto⟩

/-- One enriched placement row as it reaches the consolidation stage: the
base row plus the derived columns consumed downstream ("+1 superficie" and
"Tarifa Real ($)"); this is also the shape of `df_o_public`, since the
internal derived columns (lines 567-578) are hidden from it. -/
structure EnrOutRow where
  base : OutRow
  masUnaSup : Nat
  tarifaRealD : ℚ
deriving DecidableEq, Inhabited

/-- `_transform_outview_enriquecido` materialized row by row. -/
def enriquecido (_factor : ℚ) (rows : List OutRow) : List EnrOutRow :=
  (List.range rows.length).map fun i =>
    ⟨nth rows i, masUnaSuperficie rows i, tarifaReal rows i⟩

/-- `_to_unified(df_o, _OUT_MAP)`: Fecha→FECHA, Marca→MARCA,
Tarifa Real ($)→INVERSIÓN REAL; other mapped columns form `resto`. -/
def toUnifiedOut (r : EnrOutRow) : URow :=
  ⟨some r.base.fecha, some r.base.marca, some r.tarifaRealD,
   [r.base.tipoElemento, r.base.distrito, r.base.avenida, r.base.nroCalle,
    r.base.orientacionVia, r.base.categoria, r.base.item, r.base.anunciante,
    r.base.proveedor]⟩

/-- The (FECHA, MARCA) sort key of line 562, with nulls (NaN/NaT) ordered
last via `WithTop`. -/
def uClave (r : URow) : Lex (WithTop Nat × WithTop String) :=
  toLex (r.fecha.elim ⊤ (fun d => (d : WithTop Nat)),
         r.marca.elim ⊤ (fun m => (m : WithTop String)))

def uLE (a b : URow) : Prop :=
  uClave a ≤ uClave b

instance : DecidableRel uLE :=
  fun a b => inferInstanceAs (Decidable (uClave a ≤ uClave b))

instance : IsTotal URow uLE :=
  ⟨fun a b => le_total (uClave a) (uClave b)⟩

instance : IsTrans URow uLE :=
  ⟨fun _ _ _ h₁ h₂ => le_trans h₁ h₂⟩

/-- The possible shapes of `df_result` (lines 619-625): the unified
consolidated table, the processed monitor table, or the public placement
table. -/
inductive Consolidado where
  | unificado (filas : List URow)
  | monitor (filas : List MonRow)
  | outview (filas : List EnrOutRow)
deriving DecidableEq

/-- The data path of `procesar_monitor_outview` (lines 549-564 and 619-625):
apply the channel factors to the monitor table, enrich the placement table,
build the unified consolidated table — concatenation of both projections
sorted by (FECHA, MARCA) with nulls last — only when both sources are
non-empty, and return it, else the non-empty monitor table, else the public
placement table. -/
def procesarMonitorOutview (dfM : List MonRow) (dfORaw : List OutRow)
    (factores : List (String × ℚ)) (factor : ℚ) : Consolidado :=
  if aplicarFactoresMonitor dfM factores ≠ [] ∧ enriquecido factor dfORaw ≠ [] then
    .unificado (List.insertionSort uLE
      ((aplicarFactoresMonitor dfM factores).map toUnifiedMon ++
       (enriquecido factor dfORaw).map toUnifiedOut))
  else if aplicarFactoresMonitor dfM factores ≠ [] then
    .monitor (aplicarFactoresMonitor dfM factores)
  else
    .outview (enriquecido factor dfORaw)

theorem aplicarFactores_ne_nil {df : List MonRow} {factores : List (String × ℚ)}
    (h : df ≠ []) : aplicarFactoresMonitor df factores ≠ [] := by
  intro hc
  exact h (List.map_eq_nil_iff.mp hc)

theorem enriquecido_ne_nil {factor : ℚ} {rows : List OutRow} (h : rows ≠ []) :
    enriquecido factor rows ≠ [] := by
  intro hc
  apply h
  have hl := congrArg List.length hc
  simp only [enriquecido, List.length_map, List.length_range, List.length_nil] at hl
  exact List.length_eq_zero.mp hl

end Mougli

-- ───────────────────────── C3 (amended) ─────────────────────────

/-- **C3 (amended).** When both the broadcast and the placement table are
non-empty, the consolidated result is the concatenation of their projections
into the unified schema sorted by (date, brand) with nulls last; when only
the broadcast table is non-empty the result is the *processed broadcast
table in its native schema* (not its unified projection); when the broadcast
table is empty the result is the *public placement table in its native
schema* (empty when the placement table is also empty). -/
theorem C3_consolidado (dfM : List Mougli.MonRow) (dfORaw : List Mougli.OutRow)
    (factores : List (String × ℚ)) (factor : ℚ) :
    (dfM ≠ [] → dfORaw ≠ [] →
      ∃ l, Mougli.procesarMonitorOutview dfM dfORaw factores factor = .unificado l ∧
        l.Perm ((Mougli.aplicarFactoresMonitor dfM factores).map Mougli.toUnifiedMon ++
                (Mougli.enriquecido factor dfORaw).map Mougli.toUnifiedOut) ∧
        l.Sorted Mougli.uLE) ∧
    (dfM ≠ [] → dfORaw = [] →
      Mougli.procesarMonitorOutview dfM dfORaw factores factor =
        .monitor (Mougli.aplicarFactoresMonitor dfM factores)) ∧
    (dfM = [] →
      Mougli.procesarMonitorOutview dfM dfORaw factores factor =
        .outview (Mougli.enriquecido factor dfORaw)) := by
  refine ⟨?_, ?_, ?_⟩
  · intro hm ho
    refine ⟨_, ?_, List.perm_insertionSort _ _, List.sorted_insertionSort _ _⟩
    unfold Mougli.procesarMonitorOutview
    rw [if_pos ⟨Mougli.aplicarFactores_ne_nil hm, Mougli.enriquecido_ne_nil ho⟩]
  · intro hm ho
    have he : Mougli.enriquecido factor dfORaw = [] := by
      subst ho
      rfl
    unfold Mougli.procesarMonitorOutview
    rw [if_neg (by simp [he]), if_pos (Mougli.aplicarFactores_ne_nil hm)]
  · intro hm
    have ha : Mougli.aplicarFactoresMonitor dfM factores = [] := by
      subst hm
      rfl
    unfold Mougli.procesarMonitorOutview
    rw [if_neg (by simp [ha]), if_neg (by simp [ha])]

namespace Mougli

def monC3 : MonRow := ⟨some 5, some "M", "TV", 100, []⟩

end Mougli

/-- Counterexample to C3 as stated: with only the broadcast source present,
the result is the processed monitor table in its native schema, not the
claimed projection into the unified schema. -/
theorem C3_counterexample :
    Mougli.procesarMonitorOutview [Mougli.monC3] [] [] 1 =
      .monitor (Mougli.aplicarFactoresMonitor [Mougli.monC3] []) ∧
    Mougli.procesarMonitorOutview [Mougli.monC3] [] [] 1 ≠
      .unificado ((Mougli.aplicarFactoresMonitor [Mougli.monC3] []).map Mougli.toUnifiedMon) := by
  constructor
  · rfl
  · intro h
    have h' : Mougli.Consolidado.monitor (Mougli.aplicarFactoresMonitor [Mougli.monC3] []) =
        .unificado ((Mougli.aplicarFactoresMonitor [Mougli.monC3] []).map Mougli.toUnifiedMon) := h
    exact Mougli.Consolidado.noConfusion h'

/-- Witness for C3: with one broadcast row and one placement row present the
result is a unified table that is a sorted permutation of the two unified
projections. -/
theorem C3_consolidado_witness :
    ∃ l, Mougli.procesarMonitorOutview [Mougli.monC3] [Mougli.filaEj] [] 1 = .unificado l ∧
      l.Perm ((Mougli.aplicarFactoresMonitor [Mougli.monC3] []).map Mougli.toUnifiedMon ++
              (Mougli.enriquecido 1 [Mougli.filaEj]).map Mougli.toUnifiedOut) ∧
      l.Sorted Mougli.uLE :=
  (C3_consolidado [Mougli.monC3] [Mougli.filaEj] [] 1).1
    (by intro h; exact List.noConfusion h)
    (by intro h; exact List.noConfusion h)
